import Mathlib

set_option maxRecDepth 10000

/-!
Verification of the PIN/UV Auth Protocol One core (libwebauthn pin.rs).

Shallow embedding of the cryptographic core: byte sequences are `List Nat`
with every element below 256, 32-bit words are `Nat` kept below 2^32 by
explicit reduction. Machine operations (`^^^`, `&&&`, `>>>`, `<<<`, `%`)
are the corresponding Nat operations. Fallible operations return `Except`.
-/

namespace PinProtocol

/-- Predicate: every element of the list is a byte value (below 256). -/
def bytesValid (l : List Nat) : Prop := ∀ b ∈ l, b < 256

instance (l : List Nat) : Decidable (bytesValid l) := by
  unfold bytesValid; infer_instance

/-- Big-endian encoding of a natural number into exactly `n` bytes
(least significant bytes kept, as for a field element below 2^(8n)). -/
def natToBytesBE : Nat → Nat → List Nat
  | 0, _ => []
  | n+1, x => natToBytesBE n (x / 256) ++ [x % 256]

/-- Big-endian interpretation of a byte list as a natural number. -/
def bytesToNatBE (l : List Nat) : Nat := l.foldl (fun acc b => acc * 256 + b) 0



/-- Splits a list into consecutive chunks of `k` elements; the first argument
is fuel bounding the recursion depth. -/
def chunksOf (k : Nat) : Nat → List Nat → List (List Nat)
  | 0, _ => []
  | _, [] => []
  | f+1, l => l.take k :: chunksOf k f (l.drop k)

/-! ## SHA-256 (FIPS 180-4), used by the kdf, pin_hash and HMAC -/

/-- Addition modulo 2^32. -/
def add32 (a b : Nat) : Nat := (a + b) % 4294967296

/-- Right rotation of a 32-bit word. -/
def rotr32 (n x : Nat) : Nat := ((x >>> n) ||| (x <<< (32 - n))) % 4294967296

def bsig0 (x : Nat) : Nat := rotr32 2 x ^^^ rotr32 13 x ^^^ rotr32 22 x
def bsig1 (x : Nat) : Nat := rotr32 6 x ^^^ rotr32 11 x ^^^ rotr32 25 x
def ssig0 (x : Nat) : Nat := rotr32 7 x ^^^ rotr32 18 x ^^^ (x >>> 3)
def ssig1 (x : Nat) : Nat := rotr32 17 x ^^^ rotr32 19 x ^^^ (x >>> 10)

def chFun (e f g : Nat) : Nat := (e &&& f) ^^^ ((e ^^^ 0xffffffff) &&& g)
def majFun (a b c : Nat) : Nat := (a &&& b) ^^^ (a &&& c) ^^^ (b &&& c)

/-- The SHA-256 round constants. -/
def shaK : List Nat :=
  [1116352408, 1899447441, 3049323471, 3921009573, 961987163, 1508970993,
   2453635748, 2870763221, 3624381080, 310598401, 607225278, 1426881987,
   1925078388, 2162078206, 2614888103, 3248222580, 3835390401, 4022224774,
   264347078, 604807628, 770255983, 1249150122, 1555081692, 1996064986,
   2554220882, 2821834349, 2952996808, 3210313671, 3336571891, 3584528711,
   113926993, 338241895, 666307205, 773529912, 1294757372, 1396182291,
   1695183700, 1986661051, 2177026350, 2456956037, 2730485921, 2820302411,
   3259730800, 3345764771, 3516065817, 3600352804, 4094571909, 275423344,
   430227734, 506948616, 659060556, 883997877, 958139571, 1322822218,
   1537002063, 1747873779, 1955562222, 2024104815, 2227730452, 2361852424,
   2428436474, 2756734187, 3204031479, 3329325298]

/-- The eight 32-bit words of a SHA-256 hash state. -/
structure Hash8 where
  ha : Nat
  hb : Nat
  hc : Nat
  hd : Nat
  he : Nat
  hf : Nat
  hg : Nat
  hh : Nat
deriving Repr, DecidableEq

/-- The SHA-256 initial hash value. -/
def shaInit : Hash8 :=
  ⟨1779033703, 3144134277, 1013904242, 2773480762,
   1359893119, 2600822924, 528734635, 1541459225⟩

/-- One round of the SHA-256 compression function. -/
def shaStep (st : Hash8) (kw : Nat × Nat) : Hash8 :=
  let t1 := add32 st.hh (add32 (bsig1 st.he) (add32 (chFun st.he st.hf st.hg) (add32 kw.1 kw.2)))
  let t2 := add32 (bsig0 st.ha) (majFun st.ha st.hb st.hc)
  ⟨add32 t1 t2, st.ha, st.hb, st.hc, add32 st.hd t1, st.he, st.hf, st.hg⟩

/-- Big-endian interpretation of four bytes as a 32-bit word. -/
def beWord (l : List Nat) : Nat := l.foldl (fun acc b => acc * 256 + b) 0

/-- Extends the 16-word message schedule to 64 words; first argument is fuel. -/
def schedExtend : Nat → List Nat → List Nat
  | 0, ws => ws
  | f+1, ws =>
    let i := ws.length
    let w := add32 (ssig1 (ws.getD (i-2) 0))
      (add32 (ws.getD (i-7) 0) (add32 (ssig0 (ws.getD (i-15) 0)) (ws.getD (i-16) 0)))
    schedExtend f (ws ++ [w])

/-- Processes one 64-byte block into the running hash state. -/
def processBlock (st : Hash8) (block : List Nat) : Hash8 :=
  let ws := schedExtend 48 ((chunksOf 4 block.length block).map beWord)
  let r := List.foldl shaStep st (shaK.zip ws)
  ⟨add32 st.ha r.ha, add32 st.hb r.hb, add32 st.hc r.hc, add32 st.hd r.hd,
   add32 st.he r.he, add32 st.hf r.hf, add32 st.hg r.hg, add32 st.hh r.hh⟩

/-- SHA-256 padding: a 0x80 byte, zeros to 56 mod 64, then the 64-bit bit length. -/
def shaPad (msg : List Nat) : List Nat :=
  msg ++ 0x80 :: (List.replicate ((55 + 64 - msg.length % 64) % 64) 0 ++ natToBytesBE 8 (8 * msg.length))

/-- Serializes a 32-bit word as four big-endian bytes. -/
def wordBytesBE (w : Nat) : List Nat := [(w >>> 24) % 256, (w >>> 16) % 256, (w >>> 8) % 256, w % 256]

/-- Serializes the hash state as 32 bytes. -/
def hashBytes (st : Hash8) : List Nat :=
  wordBytesBE st.ha ++ wordBytesBE st.hb ++ wordBytesBE st.hc ++ wordBytesBE st.hd ++
  wordBytesBE st.he ++ wordBytesBE st.hf ++ wordBytesBE st.hg ++ wordBytesBE st.hh

/-- SHA-256 of a byte sequence. -/
def sha256 (msg : List Nat) : List Nat :=
  hashBytes (List.foldl processBlock shaInit (chunksOf 64 (shaPad msg).length (shaPad msg)))





/-! ## HMAC-SHA-256 and the two truncating primitives -/

/-- HMAC-SHA-256 (RFC 2104) with a 64-byte block size; embeds `hmac_sha256`
from the source, which accepts keys of any length. -/
def hmac_sha256 (key message : List Nat) : List Nat :=
  let k0 := if 64 < key.length then sha256 key else key
  let kp := k0 ++ List.replicate (64 - k0.length) 0
  sha256 ((kp.map (fun b => b ^^^ 0x5c)) ++ sha256 ((kp.map (fun b => b ^^^ 0x36)) ++ message))


/-- Embeds `pin_hash`: the first 16 bytes of SHA-256 of the PIN bytes. -/
def pin_hash (pin : List Nat) : List Nat := (sha256 pin).take 16

/-- Embeds `PinUvAuthProtocolOne::authenticate`: the first 16 bytes of
HMAC-SHA-256 of the message under the key. The receiver `self` is unused by
the source body, so the embedding takes only key and message. -/
def authenticate (key message : List Nat) : List Nat := (hmac_sha256 key message).take 16

/-! ## AES-256 (FIPS 197) and CBC mode, used by encrypt and decrypt -/

/-- The AES S-box. -/
def sboxT : List Nat :=
  [0x63, 0x7c, 0x77, 0x7b, 0xf2, 0x6b, 0x6f, 0xc5, 0x30, 0x01, 0x67, 0x2b, 0xfe, 0xd7, 0xab, 0x76,
   0xca, 0x82, 0xc9, 0x7d, 0xfa, 0x59, 0x47, 0xf0, 0xad, 0xd4, 0xa2, 0xaf, 0x9c, 0xa4, 0x72, 0xc0,
   0xb7, 0xfd, 0x93, 0x26, 0x36, 0x3f, 0xf7, 0xcc, 0x34, 0xa5, 0xe5, 0xf1, 0x71, 0xd8, 0x31, 0x15,
   0x04, 0xc7, 0x23, 0xc3, 0x18, 0x96, 0x05, 0x9a, 0x07, 0x12, 0x80, 0xe2, 0xeb, 0x27, 0xb2, 0x75,
   0x09, 0x83, 0x2c, 0x1a, 0x1b, 0x6e, 0x5a, 0xa0, 0x52, 0x3b, 0xd6, 0xb3, 0x29, 0xe3, 0x2f, 0x84,
   0x53, 0xd1, 0x00, 0xed, 0x20, 0xfc, 0xb1, 0x5b, 0x6a, 0xcb, 0xbe, 0x39, 0x4a, 0x4c, 0x58, 0xcf,
   0xd0, 0xef, 0xaa, 0xfb, 0x43, 0x4d, 0x33, 0x85, 0x45, 0xf9, 0x02, 0x7f, 0x50, 0x3c, 0x9f, 0xa8,
   0x51, 0xa3, 0x40, 0x8f, 0x92, 0x9d, 0x38, 0xf5, 0xbc, 0xb6, 0xda, 0x21, 0x10, 0xff, 0xf3, 0xd2,
   0xcd, 0x0c, 0x13, 0xec, 0x5f, 0x97, 0x44, 0x17, 0xc4, 0xa7, 0x7e, 0x3d, 0x64, 0x5d, 0x19, 0x73,
   0x60, 0x81, 0x4f, 0xdc, 0x22, 0x2a, 0x90, 0x88, 0x46, 0xee, 0xb8, 0x14, 0xde, 0x5e, 0x0b, 0xdb,
   0xe0, 0x32, 0x3a, 0x0a, 0x49, 0x06, 0x24, 0x5c, 0xc2, 0xd3, 0xac, 0x62, 0x91, 0x95, 0xe4, 0x79,
   0xe7, 0xc8, 0x37, 0x6d, 0x8d, 0xd5, 0x4e, 0xa9, 0x6c, 0x56, 0xf4, 0xea, 0x65, 0x7a, 0xae, 0x08,
   0xba, 0x78, 0x25, 0x2e, 0x1c, 0xa6, 0xb4, 0xc6, 0xe8, 0xdd, 0x74, 0x1f, 0x4b, 0xbd, 0x8b, 0x8a,
   0x70, 0x3e, 0xb5, 0x66, 0x48, 0x03, 0xf6, 0x0e, 0x61, 0x35, 0x57, 0xb9, 0x86, 0xc1, 0x1d, 0x9e,
   0xe1, 0xf8, 0x98, 0x11, 0x69, 0xd9, 0x8e, 0x94, 0x9b, 0x1e, 0x87, 0xe9, 0xce, 0x55, 0x28, 0xdf,
   0x8c, 0xa1, 0x89, 0x0d, 0xbf, 0xe6, 0x42, 0x68, 0x41, 0x99, 0x2d, 0x0f, 0xb0, 0x54, 0xbb, 0x16]

/-- The inverse AES S-box. -/
def invSboxT : List Nat :=
  [0x52, 0x09, 0x6a, 0xd5, 0x30, 0x36, 0xa5, 0x38, 0xbf, 0x40, 0xa3, 0x9e, 0x81, 0xf3, 0xd7, 0xfb,
   0x7c, 0xe3, 0x39, 0x82, 0x9b, 0x2f, 0xff, 0x87, 0x34, 0x8e, 0x43, 0x44, 0xc4, 0xde, 0xe9, 0xcb,
   0x54, 0x7b, 0x94, 0x32, 0xa6, 0xc2, 0x23, 0x3d, 0xee, 0x4c, 0x95, 0x0b, 0x42, 0xfa, 0xc3, 0x4e,
   0x08, 0x2e, 0xa1, 0x66, 0x28, 0xd9, 0x24, 0xb2, 0x76, 0x5b, 0xa2, 0x49, 0x6d, 0x8b, 0xd1, 0x25,
   0x72, 0xf8, 0xf6, 0x64, 0x86, 0x68, 0x98, 0x16, 0xd4, 0xa4, 0x5c, 0xcc, 0x5d, 0x65, 0xb6, 0x92,
   0x6c, 0x70, 0x48, 0x50, 0xfd, 0xed, 0xb9, 0xda, 0x5e, 0x15, 0x46, 0x57, 0xa7, 0x8d, 0x9d, 0x84,
   0x90, 0xd8, 0xab, 0x00, 0x8c, 0xbc, 0xd3, 0x0a, 0xf7, 0xe4, 0x58, 0x05, 0xb8, 0xb3, 0x45, 0x06,
   0xd0, 0x2c, 0x1e, 0x8f, 0xca, 0x3f, 0x0f, 0x02, 0xc1, 0xaf, 0xbd, 0x03, 0x01, 0x13, 0x8a, 0x6b,
   0x3a, 0x91, 0x11, 0x41, 0x4f, 0x67, 0xdc, 0xea, 0x97, 0xf2, 0xcf, 0xce, 0xf0, 0xb4, 0xe6, 0x73,
   0x96, 0xac, 0x74, 0x22, 0xe7, 0xad, 0x35, 0x85, 0xe2, 0xf9, 0x37, 0xe8, 0x1c, 0x75, 0xdf, 0x6e,
   0x47, 0xf1, 0x1a, 0x71, 0x1d, 0x29, 0xc5, 0x89, 0x6f, 0xb7, 0x62, 0x0e, 0xaa, 0x18, 0xbe, 0x1b,
   0xfc, 0x56, 0x3e, 0x4b, 0xc6, 0xd2, 0x79, 0x20, 0x9a, 0xdb, 0xc0, 0xfe, 0x78, 0xcd, 0x5a, 0xf4,
   0x1f, 0xdd, 0xa8, 0x33, 0x88, 0x07, 0xc7, 0x31, 0xb1, 0x12, 0x10, 0x59, 0x27, 0x80, 0xec, 0x5f,
   0x60, 0x51, 0x7f, 0xa9, 0x19, 0xb5, 0x4a, 0x0d, 0x2d, 0xe5, 0x7a, 0x9f, 0x93, 0xc9, 0x9c, 0xef,
   0xa0, 0xe0, 0x3b, 0x4d, 0xae, 0x2a, 0xf5, 0xb0, 0xc8, 0xeb, 0xbb, 0x3c, 0x83, 0x53, 0x99, 0x61,
   0x17, 0x2b, 0x04, 0x7e, 0xba, 0x77, 0xd6, 0x26, 0xe1, 0x69, 0x14, 0x63, 0x55, 0x21, 0x0c, 0x7d]

def sbox (x : Nat) : Nat := sboxT.getD x 0
def invSbox (x : Nat) : Nat := invSboxT.getD x 0

/-- Multiplication by x in GF(2^8) modulo the AES polynomial 0x11b. -/
def xtime (x : Nat) : Nat := if 128 ≤ x then (2 * x) ^^^ 0x11b else 2 * x

def mul2 (x : Nat) : Nat := xtime x
def mul3 (x : Nat) : Nat := xtime x ^^^ x
def mul9 (x : Nat) : Nat := xtime (xtime (xtime x)) ^^^ x
def mul11 (x : Nat) : Nat := xtime (xtime (xtime x)) ^^^ xtime x ^^^ x
def mul13 (x : Nat) : Nat := xtime (xtime (xtime x)) ^^^ xtime (xtime x) ^^^ x
def mul14 (x : Nat) : Nat := xtime (xtime (xtime x)) ^^^ xtime (xtime x) ^^^ xtime x

/-- The 16 bytes of an AES state, in flat column-major order:
byte i sits in row i % 4 and column i / 4 of the FIPS 197 state grid. -/
structure St where
  s0 : Nat
  s1 : Nat
  s2 : Nat
  s3 : Nat
  s4 : Nat
  s5 : Nat
  s6 : Nat
  s7 : Nat
  s8 : Nat
  s9 : Nat
  s10 : Nat
  s11 : Nat
  s12 : Nat
  s13 : Nat
  s14 : Nat
  s15 : Nat
deriving Repr, DecidableEq

/-- Predicate: every byte of the state is below 256. -/
def validSt (t : St) : Prop :=
  t.s0 < 256 ∧ t.s1 < 256 ∧ t.s2 < 256 ∧ t.s3 < 256 ∧
  t.s4 < 256 ∧ t.s5 < 256 ∧ t.s6 < 256 ∧ t.s7 < 256 ∧
  t.s8 < 256 ∧ t.s9 < 256 ∧ t.s10 < 256 ∧ t.s11 < 256 ∧
  t.s12 < 256 ∧ t.s13 < 256 ∧ t.s14 < 256 ∧ t.s15 < 256

def subBytes (t : St) : St :=
  ⟨sbox t.s0, sbox t.s1, sbox t.s2, sbox t.s3, sbox t.s4, sbox t.s5, sbox t.s6, sbox t.s7,
   sbox t.s8, sbox t.s9, sbox t.s10, sbox t.s11, sbox t.s12, sbox t.s13, sbox t.s14, sbox t.s15⟩

def invSubBytes (t : St) : St :=
  ⟨invSbox t.s0, invSbox t.s1, invSbox t.s2, invSbox t.s3, invSbox t.s4, invSbox t.s5,
   invSbox t.s6, invSbox t.s7, invSbox t.s8, invSbox t.s9, invSbox t.s10, invSbox t.s11,
   invSbox t.s12, invSbox t.s13, invSbox t.s14, invSbox t.s15⟩

/-- ShiftRows: row r of the state grid rotates left by r. -/
def shiftRows (t : St) : St :=
  ⟨t.s0, t.s5, t.s10, t.s15, t.s4, t.s9, t.s14, t.s3,
   t.s8, t.s13, t.s2, t.s7, t.s12, t.s1, t.s6, t.s11⟩

/-- InvShiftRows: row r of the state grid rotates right by r. -/
def invShiftRows (t : St) : St :=
  ⟨t.s0, t.s13, t.s10, t.s7, t.s4, t.s1, t.s14, t.s11,
   t.s8, t.s5, t.s2, t.s15, t.s12, t.s9, t.s6, t.s3⟩

/-- AddRoundKey: bytewise xor with the round key. -/
def addRK (t k : St) : St :=
  ⟨t.s0 ^^^ k.s0, t.s1 ^^^ k.s1, t.s2 ^^^ k.s2, t.s3 ^^^ k.s3,
   t.s4 ^^^ k.s4, t.s5 ^^^ k.s5, t.s6 ^^^ k.s6, t.s7 ^^^ k.s7,
   t.s8 ^^^ k.s8, t.s9 ^^^ k.s9, t.s10 ^^^ k.s10, t.s11 ^^^ k.s11,
   t.s12 ^^^ k.s12, t.s13 ^^^ k.s13, t.s14 ^^^ k.s14, t.s15 ^^^ k.s15⟩

def mc0 (a b c d : Nat) : Nat := mul2 a ^^^ mul3 b ^^^ c ^^^ d
def mc1 (a b c d : Nat) : Nat := a ^^^ mul2 b ^^^ mul3 c ^^^ d
def mc2 (a b c d : Nat) : Nat := a ^^^ b ^^^ mul2 c ^^^ mul3 d
def mc3 (a b c d : Nat) : Nat := mul3 a ^^^ b ^^^ c ^^^ mul2 d

def ic0 (a b c d : Nat) : Nat := mul14 a ^^^ mul11 b ^^^ mul13 c ^^^ mul9 d
def ic1 (a b c d : Nat) : Nat := mul9 a ^^^ mul14 b ^^^ mul11 c ^^^ mul13 d
def ic2 (a b c d : Nat) : Nat := mul13 a ^^^ mul9 b ^^^ mul14 c ^^^ mul11 d
def ic3 (a b c d : Nat) : Nat := mul11 a ^^^ mul13 b ^^^ mul9 c ^^^ mul14 d

def mixCols (t : St) : St :=
  ⟨mc0 t.s0 t.s1 t.s2 t.s3, mc1 t.s0 t.s1 t.s2 t.s3, mc2 t.s0 t.s1 t.s2 t.s3, mc3 t.s0 t.s1 t.s2 t.s3,
   mc0 t.s4 t.s5 t.s6 t.s7, mc1 t.s4 t.s5 t.s6 t.s7, mc2 t.s4 t.s5 t.s6 t.s7, mc3 t.s4 t.s5 t.s6 t.s7,
   mc0 t.s8 t.s9 t.s10 t.s11, mc1 t.s8 t.s9 t.s10 t.s11, mc2 t.s8 t.s9 t.s10 t.s11, mc3 t.s8 t.s9 t.s10 t.s11,
   mc0 t.s12 t.s13 t.s14 t.s15, mc1 t.s12 t.s13 t.s14 t.s15, mc2 t.s12 t.s13 t.s14 t.s15, mc3 t.s12 t.s13 t.s14 t.s15⟩

def invMixCols (t : St) : St :=
  ⟨ic0 t.s0 t.s1 t.s2 t.s3, ic1 t.s0 t.s1 t.s2 t.s3, ic2 t.s0 t.s1 t.s2 t.s3, ic3 t.s0 t.s1 t.s2 t.s3,
   ic0 t.s4 t.s5 t.s6 t.s7, ic1 t.s4 t.s5 t.s6 t.s7, ic2 t.s4 t.s5 t.s6 t.s7, ic3 t.s4 t.s5 t.s6 t.s7,
   ic0 t.s8 t.s9 t.s10 t.s11, ic1 t.s8 t.s9 t.s10 t.s11, ic2 t.s8 t.s9 t.s10 t.s11, ic3 t.s8 t.s9 t.s10 t.s11,
   ic0 t.s12 t.s13 t.s14 t.s15, ic1 t.s12 t.s13 t.s14 t.s15, ic2 t.s12 t.s13 t.s14 t.s15, ic3 t.s12 t.s13 t.s14 t.s15⟩

/-! ### AES-256 key expansion -/

def rotWord (w : Nat) : Nat := ((w <<< 8) ||| (w >>> 24)) % 4294967296

def subWord (w : Nat) : Nat :=
  sbox ((w >>> 24) % 256) * 16777216 + sbox ((w >>> 16) % 256) * 65536 +
  sbox ((w >>> 8) % 256) * 256 + sbox (w % 256)

def rconW : List Nat :=
  [0, 0x01000000, 0x02000000, 0x04000000, 0x08000000, 0x10000000, 0x20000000, 0x40000000]

/-- The next word of the AES-256 key schedule, given the words so far. -/
def ksNext (ws : List Nat) : Nat :=
  let i := ws.length
  let prev := ws.getD (i - 1) 0
  let t := if i % 8 = 0 then subWord (rotWord prev) ^^^ rconW.getD (i / 8) 0
           else if i % 8 = 4 then subWord prev
           else prev
  ws.getD (i - 8) 0 ^^^ t

def ksAux : Nat → List Nat → List Nat
  | 0, ws => ws
  | f+1, ws => ksAux f (ws ++ [ksNext ws])

/-- The 60 words of the AES-256 key schedule. -/
def keyWords (key : List Nat) : List Nat := ksAux 52 ((chunksOf 4 key.length key).map beWord)

def stOfWords (w0 w1 w2 w3 : Nat) : St :=
  ⟨(w0 >>> 24) % 256, (w0 >>> 16) % 256, (w0 >>> 8) % 256, w0 % 256,
   (w1 >>> 24) % 256, (w1 >>> 16) % 256, (w1 >>> 8) % 256, w1 % 256,
   (w2 >>> 24) % 256, (w2 >>> 16) % 256, (w2 >>> 8) % 256, w2 % 256,
   (w3 >>> 24) % 256, (w3 >>> 16) % 256, (w3 >>> 8) % 256, w3 % 256⟩

def roundKey (ws : List Nat) (r : Nat) : St :=
  stOfWords (ws.getD (4*r) 0) (ws.getD (4*r+1) 0) (ws.getD (4*r+2) 0) (ws.getD (4*r+3) 0)

/-- The 15 AES-256 round keys: the initial one, the 13 middle ones, the final one. -/
structure RKeys where
  first : St
  mids : List St
  final : St

/-- Validity of a round-key set: all bytes of all round keys are below 256. -/
def validRK (rk : RKeys) : Prop :=
  validSt rk.first ∧ (∀ m ∈ rk.mids, validSt m) ∧ validSt rk.final

def expandKey (key : List Nat) : RKeys :=
  let ws := keyWords key
  ⟨roundKey ws 0,
   [roundKey ws 1, roundKey ws 2, roundKey ws 3, roundKey ws 4, roundKey ws 5, roundKey ws 6,
    roundKey ws 7, roundKey ws 8, roundKey ws 9, roundKey ws 10, roundKey ws 11, roundKey ws 12,
    roundKey ws 13],
   roundKey ws 14⟩

/-! ### The block cipher and CBC chaining -/

/-- One middle encryption round. -/
def encMid (t : St) (rk : St) : St := addRK (mixCols (shiftRows (subBytes t))) rk

/-- AES encryption of one block (FIPS 197 Cipher). -/
def encBlockSt (rk : RKeys) (t : St) : St :=
  addRK (shiftRows (subBytes (List.foldl encMid (addRK t rk.first) rk.mids))) rk.final

/-- The inverse of one middle encryption round. -/
def invEncMid (rk : St) (t : St) : St := invSubBytes (invShiftRows (invMixCols (addRK t rk)))

/-- AES decryption of one block (FIPS 197 InvCipher). -/
def decBlockSt (rk : RKeys) (t : St) : St :=
  addRK (List.foldr invEncMid (invSubBytes (invShiftRows (addRK t rk.final))) rk.mids) rk.first

def listToSt (l : List Nat) : St :=
  ⟨l.getD 0 0, l.getD 1 0, l.getD 2 0, l.getD 3 0, l.getD 4 0, l.getD 5 0, l.getD 6 0, l.getD 7 0,
   l.getD 8 0, l.getD 9 0, l.getD 10 0, l.getD 11 0, l.getD 12 0, l.getD 13 0, l.getD 14 0, l.getD 15 0⟩

def stToList (t : St) : List Nat :=
  [t.s0, t.s1, t.s2, t.s3, t.s4, t.s5, t.s6, t.s7,
   t.s8, t.s9, t.s10, t.s11, t.s12, t.s13, t.s14, t.s15]

def aesEncBlock (rk : RKeys) (b : List Nat) : List Nat := stToList (encBlockSt rk (listToSt b))
def aesDecBlock (rk : RKeys) (b : List Nat) : List Nat := stToList (decBlockSt rk (listToSt b))

def xorBytes (a b : List Nat) : List Nat := List.zipWith (fun x y => x ^^^ y) a b

/-- CBC encryption over a flat byte list, 16 bytes at a time; `prev` is the
previous ciphertext block (initially the IV). First argument is fuel. -/
def cbcEncAux (rk : RKeys) : Nat → List Nat → List Nat → List Nat
  | 0, _, _ => []
  | f+1, prev, pt =>
    if pt = [] then []
    else
      let c := aesEncBlock rk (xorBytes (pt.take 16) prev)
      c ++ cbcEncAux rk f c (pt.drop 16)

/-- CBC decryption over a flat byte list, 16 bytes at a time. -/
def cbcDecAux (rk : RKeys) : Nat → List Nat → List Nat → List Nat
  | 0, _, _ => []
  | f+1, prev, ct =>
    if ct = [] then []
    else
      xorBytes (aesDecBlock rk (ct.take 16)) prev ++ cbcDecAux rk f (ct.take 16) (ct.drop 16)

/-! ## The error domain -/

/-- CTAP protocol error codes surfaced by the core; only `other` is produced by
Protocol One. The full enumeration lives in the ctap2 proto module, outside the
covered source; further codes are included so that error values are a
meaningful equality type. -/
inductive CtapError where
  | invalidCommand
  | invalidParameter
  | invalidLength
  | pinInvalid
  | pinAuthInvalid
  | other
deriving Repr, DecidableEq

/-- Modelled from the spec: the transport error domain is opaque to this core
(transport/error.rs is outside the covered source); the core can wrap a CTAP
error or an opaque transport-level failure, and never constructs the latter. -/
inductive Error where
  | ctap : CtapError → Error
  | transport : Nat → Error
deriving Repr, DecidableEq

/-- The all-zero initialization vector used by both encrypt and decrypt. -/
def iv16 : List Nat := List.replicate 16 0

/-- Embeds `PinUvAuthProtocolOne::encrypt`: AES-256-CBC with the all-zero IV and
no padding. The key-size check mirrors new_from_slices, which fails exactly when
the key is not 32 bytes. The source performs no alignment check here; the
plaintext is required to be block-aligned by contract. -/
def encrypt (key plaintext : List Nat) : Except Error (List Nat) :=
  if key.length = 32 then
    .ok (cbcEncAux (expandKey key) plaintext.length iv16 plaintext)
  else
    .error (.ctap .other)

/-- Embeds `PinUvAuthProtocolOne::decrypt`: rejects a ciphertext whose length is
not a multiple of 16, then decrypts with AES-256-CBC under the all-zero IV. With
NoPadding the final unpadding step of the source never fails. -/
def decrypt (key ciphertext : List Nat) : Except Error (List Nat) :=
  if ciphertext.length % 16 ≠ 0 then .error (.ctap .other)
  else if key.length = 32 then
    .ok (cbcDecAux (expandKey key) ciphertext.length iv16 ciphertext)
  else .error (.ctap .other)

/-! ## P-256 key agreement (the KeyAgreementEngine) -/

/-- The P-256 base field prime. -/
def pP : Nat := 0xffffffff00000001000000000000000000000000ffffffffffffffffffffffff

/-- The P-256 curve coefficient a = p - 3. -/
def aP : Nat := pP - 3

/-- The P-256 curve coefficient b. -/
def bP : Nat := 0x5ac635d8aa3a93e7b3ebbd55769886bc651d06b0cc53b0f63bce3c3e27d2604b

/-- The order of the P-256 group. -/
def nP : Nat := 0xffffffff00000000ffffffffffffffffbce6faada7179e84f3b9cac2fc632551

/-- The x-coordinate of the P-256 base point. -/
def gX : Nat := 0x6b17d1f2e12c4247f8bce6e563a440f277037d812deb33a0f4a13945d898c296

/-- The y-coordinate of the P-256 base point. -/
def gY : Nat := 0x4fe342e2fe1a7f9b8ee7eb4a7c0f9e162bce33576b315ececbb6406837bf51f5

/-- Binary modular exponentiation; the first argument is fuel (one step per
exponent bit, 300 covers every 256-bit exponent). -/
def powModAux : Nat → Nat → Nat → Nat → Nat
  | 0, m, _, _ => 1 % m
  | f+1, m, b, e =>
    if e = 0 then 1 % m
    else
      let r := powModAux f m (b * b % m) (e / 2)
      if e % 2 = 1 then r * b % m else r

def powMod (m b e : Nat) : Nat := powModAux 300 m b e

def fadd (x y : Nat) : Nat := (x + y) % pP
def fsub (x y : Nat) : Nat := (x + pP - y) % pP
def fmul (x y : Nat) : Nat := x * y % pP

/-- Modular inverse in the field, by Fermat. -/
def finv (x : Nat) : Nat := powMod pP x (pP - 2)

/-- A point of the curve group: none is the point at infinity. -/
def Point : Type := Option (Nat × Nat)

instance : DecidableEq Point := by unfold Point; infer_instance

/-- Doubling in the affine group law. -/
def pointDouble (P : Point) : Point :=
  match P with
  | none => none
  | some (x, y) =>
    if y = 0 then none
    else
      let lam := fmul (fadd (fmul 3 (fmul x x)) aP) (finv (fmul 2 y))
      let x2 := fsub (fsub (fmul lam lam) x) x
      some (x2, fsub (fmul lam (fsub x x2)) y)

/-- Addition in the affine group law. -/
def pointAdd (P Q : Point) : Point :=
  match P, Q with
  | none, q => q
  | p, none => p
  | some (x1, y1), some (x2, y2) =>
    if x1 = x2 then
      if (y1 + y2) % pP = 0 then none else pointDouble (some (x1, y1))
    else
      let lam := fmul (fsub y2 y1) (finv (fsub x2 x1))
      let x3 := fsub (fsub (fmul lam lam) x1) x2
      some (x3, fsub (fmul lam (fsub x1 x3)) y1)

/-- Double-and-add scalar multiplication; the first argument is fuel (one step
per scalar bit, 257 covers every scalar below 2^256). -/
def smulAux : Nat → Nat → Point → Point
  | 0, _, _ => none
  | f+1, k, P =>
    if k = 0 then none
    else
      let r := smulAux f (k / 2) (pointDouble P)
      if k % 2 = 1 then pointAdd P r else r

/-- Scalar multiplication of a curve point. -/
def smul (k : Nat) (P : Point) : Point := smulAux 257 k P

/-- The SEC1 point-validation predicate applied on decoding an uncompressed
point: both coordinates reduced below the prime and satisfying the curve
equation with a = p - 3. -/
def onCurve (x y : Nat) : Prop :=
  x < pP ∧ y < pP ∧ y * y % pP = (x * x * x + aP * x + bP) % pP

instance (x y : Nat) : Decidable (onCurve x y) := by
  unfold onCurve; infer_instance

/-- The affine x-coordinate of a point, as serialized by the field-element
encoding; the identity point serializes with a zero coordinate. -/
def affX : Point → Nat
  | none => 0
  | some (x, _) => x

/-- The COSE public-key data model of the cosey crate, coordinates as raw byte
lists. -/
inductive CoseKey where
  | P256Key : List Nat → List Nat → CoseKey
  | EcdhEsHkdf256Key : List Nat → List Nat → CoseKey
  | Ed25519Key : List Nat → CoseKey
deriving Repr, DecidableEq

/-- The key-agreement engine state: the ephemeral private scalar and the
cached public-key coordinates, as held by PinUvAuthProtocolOne. -/
structure Engine where
  d : Nat
  qx : Nat
  qy : Nat
deriving Repr, DecidableEq

/-- Validity of an engine: the scalar is in the private-key range and the
cached public key is the corresponding multiple of the base point, as
established by EphemeralSecret::random and its public_key method. -/
def engineValid (e : Engine) : Prop :=
  1 ≤ e.d ∧ e.d < nP ∧ smul e.d (some (gX, gY)) = some (e.qx, e.qy)

instance (e : Engine) : Decidable (engineValid e) := by
  unfold engineValid; infer_instance

/-- Embeds `PinUvAuthProtocolOne::kdf`: a single unsalted SHA-256. -/
def kdf (bytes : List Nat) : List Nat := sha256 bytes

/-- Embeds `PinUvAuthProtocolOne::ecdh`: requires the EcdhEsHkdf256Key COSE
variant, validates the peer point on decoding, multiplies it by the private
scalar and hashes the x-coordinate of the shared point. Coordinate byte
lists are interpreted big-endian; the source converts them through 32-byte
arrays, so callers supply 32-byte coordinates. -/
def ecdh (e : Engine) (peer : CoseKey) : Except Error (List Nat) :=
  match peer with
  | .EcdhEsHkdf256Key xb yb =>
    let xn := bytesToNatBE xb
    let yn := bytesToNatBE yb
    if onCurve xn yn then
      .ok (kdf (natToBytesBE 32 (affX (smul e.d (some (xn, yn))))))
    else .error (.ctap .other)
  | _ => .error (.ctap .other)

/-- Embeds `PinUvAuthProtocolOne::get_public_key`: the engine's own public key
re-encoded as an uncompressed point in COSE P256Key form, 32 bytes per
coordinate. -/
def get_public_key (e : Engine) : CoseKey :=
  CoseKey.P256Key (natToBytesBE 32 e.qx) (natToBytesBE 32 e.qy)

/-- Embeds `PinUvAuthProtocolOne::encapsulate`: ecdh for the shared secret,
paired with the local public key. -/
def encapsulate (e : Engine) (peer : CoseKey) : Except Error (CoseKey × List Nat) :=
  match ecdh e peer with
  | .error err => .error err
  | .ok s => .ok (get_public_key e, s)

/-- State-passing form of encapsulate. The source method borrows the engine
immutably (&self) and its body only reads the key pair, so the state after
the call is the state before it. -/
def encapsulateS (e : Engine) (peer : CoseKey) :
    (Except Error (CoseKey × List Nat)) × Engine :=
  (encapsulate e peer, e)

/-! ## Theorems: byte-encoding and hash output shape -/

theorem natToBytesBE_length (n x : Nat) : (natToBytesBE n x).length = n := by
  induction n generalizing x with
  | zero => rfl
  | succ n ih => simp [natToBytesBE, ih]

theorem natToBytesBE_valid (n x : Nat) : bytesValid (natToBytesBE n x) := by
  induction n generalizing x with
  | zero => intro b hb; simp [natToBytesBE] at hb
  | succ n ih =>
    intro b hb
    simp only [natToBytesBE, List.mem_append, List.mem_singleton] at hb
    rcases hb with hb | hb
    · exact ih _ b hb
    · subst hb; exact Nat.mod_lt _ (by omega)

theorem hashBytes_length (st : Hash8) : (hashBytes st).length = 32 := rfl

theorem sha256_length (msg : List Nat) : (sha256 msg).length = 32 := hashBytes_length _

theorem hashBytes_valid (st : Hash8) : bytesValid (hashBytes st) := by
  intro b hb
  simp only [hashBytes, wordBytesBE, List.mem_append, List.mem_cons, List.mem_singleton,
    List.not_mem_nil, or_false] at hb
  omega

theorem sha256_valid (msg : List Nat) : bytesValid (sha256 msg) := hashBytes_valid _

theorem hmac_sha256_length (key message : List Nat) : (hmac_sha256 key message).length = 32 :=
  sha256_length _

/-! ## Theorems: xor arithmetic helpers -/

theorem xor8_lt {x y : Nat} (hx : x < 256) (hy : y < 256) : x ^^^ y < 256 := by
  have h : x ^^^ y < 2 ^ 8 := Nat.xor_lt_two_pow (by simpa using hx) (by simpa using hy)
  simpa using h

theorem xor_cancel_mid (a b c : Nat) : (a ^^^ c) ^^^ (b ^^^ c) = a ^^^ b := by
  calc (a ^^^ c) ^^^ (b ^^^ c) = (a ^^^ b) ^^^ (c ^^^ c) := by ac_rfl
  _ = a ^^^ b := by rw [Nat.xor_self, Nat.xor_zero]

theorem mul_two_xor (x y : Nat) : 2 * (x ^^^ y) = 2 * x ^^^ 2 * y := by
  apply Nat.eq_of_testBit_eq
  intro i
  have h2 : ∀ z : Nat, 2 * z = z <<< 1 := by intro z; rw [Nat.shiftLeft_eq]; ring
  rw [h2, h2, h2, Nat.testBit_xor, Nat.testBit_shiftLeft, Nat.testBit_shiftLeft,
    Nat.testBit_shiftLeft, Nat.testBit_xor]
  by_cases h : 1 ≤ i <;> simp [h]

/-! ## Theorems: GF(2^8) multiplications are linear over xor on bytes -/

theorem bit7_iff (z : Nat) (hz : z < 256) : 128 ≤ z ↔ z.testBit 7 = true := by
  rw [Nat.testBit_to_div_mod]
  have h : (2:Nat)^7 = 128 := rfl
  rw [h]
  simp only [decide_eq_true_eq]
  omega

theorem xtime_linear (x y : Nat) (hx : x < 256) (hy : y < 256) :
    xtime (x ^^^ y) = xtime x ^^^ xtime y := by
  have hxy : x ^^^ y < 256 := xor8_lt hx hy
  have hb : (x ^^^ y).testBit 7 = (x.testBit 7).xor (y.testBit 7) := Nat.testBit_xor x y 7
  unfold xtime
  by_cases h1 : 128 ≤ x <;> by_cases h2 : 128 ≤ y
  · have b1 : x.testBit 7 = true := (bit7_iff x hx).mp h1
    have b2 : y.testBit 7 = true := (bit7_iff y hy).mp h2
    have : ¬ 128 ≤ x ^^^ y := by
      intro hc
      have := (bit7_iff _ hxy).mp hc
      rw [hb, b1, b2] at this
      simp at this
    rw [if_neg this, if_pos h1, if_pos h2, mul_two_xor, xor_cancel_mid]
  · have b1 : x.testBit 7 = true := (bit7_iff x hx).mp h1
    have b2 : y.testBit 7 = false := by
      rcases Bool.eq_false_or_eq_true (y.testBit 7) with h | h
      · exact absurd ((bit7_iff y hy).mpr h) h2
      · exact h
    have : 128 ≤ x ^^^ y := by
      apply (bit7_iff _ hxy).mpr
      rw [hb, b1, b2]
      rfl
    rw [if_pos this, if_pos h1, if_neg h2, mul_two_xor]
    ac_rfl
  · have b1 : x.testBit 7 = false := by
      rcases Bool.eq_false_or_eq_true (x.testBit 7) with h | h
      · exact absurd ((bit7_iff x hx).mpr h) h1
      · exact h
    have b2 : y.testBit 7 = true := (bit7_iff y hy).mp h2
    have : 128 ≤ x ^^^ y := by
      apply (bit7_iff _ hxy).mpr
      rw [hb, b1, b2]
      rfl
    rw [if_pos this, if_neg h1, if_pos h2, mul_two_xor]
    ac_rfl
  · have b1 : x.testBit 7 = false := by
      rcases Bool.eq_false_or_eq_true (x.testBit 7) with h | h
      · exact absurd ((bit7_iff x hx).mpr h) h1
      · exact h
    have b2 : y.testBit 7 = false := by
      rcases Bool.eq_false_or_eq_true (y.testBit 7) with h | h
      · exact absurd ((bit7_iff y hy).mpr h) h2
      · exact h
    have : ¬ 128 ≤ x ^^^ y := by
      intro hc
      have := (bit7_iff _ hxy).mp hc
      rw [hb, b1, b2] at this
      simp at this
    rw [if_neg this, if_neg h1, if_neg h2, mul_two_xor]

theorem xtime_lt {x : Nat} (hx : x < 256) : xtime x < 256 := by
  have h : ∀ z < 256, xtime z < 256 := by decide
  exact h x hx

theorem xt2_linear (x y : Nat) (hx : x < 256) (hy : y < 256) :
    xtime (xtime (x ^^^ y)) = xtime (xtime x) ^^^ xtime (xtime y) := by
  rw [xtime_linear x y hx hy, xtime_linear _ _ (xtime_lt hx) (xtime_lt hy)]

theorem xt3_linear (x y : Nat) (hx : x < 256) (hy : y < 256) :
    xtime (xtime (xtime (x ^^^ y))) = xtime (xtime (xtime x)) ^^^ xtime (xtime (xtime y)) := by
  rw [xt2_linear x y hx hy, xtime_linear _ _ (xtime_lt (xtime_lt hx)) (xtime_lt (xtime_lt hy))]

theorem mul2_linear (x y : Nat) (hx : x < 256) (hy : y < 256) :
    mul2 (x ^^^ y) = mul2 x ^^^ mul2 y := xtime_linear x y hx hy

theorem mul3_linear (x y : Nat) (hx : x < 256) (hy : y < 256) :
    mul3 (x ^^^ y) = mul3 x ^^^ mul3 y := by
  unfold mul3
  rw [xtime_linear x y hx hy]
  ac_rfl

theorem mul9_linear (x y : Nat) (hx : x < 256) (hy : y < 256) :
    mul9 (x ^^^ y) = mul9 x ^^^ mul9 y := by
  unfold mul9
  rw [xt3_linear x y hx hy]
  ac_rfl

theorem mul11_linear (x y : Nat) (hx : x < 256) (hy : y < 256) :
    mul11 (x ^^^ y) = mul11 x ^^^ mul11 y := by
  unfold mul11
  rw [xt3_linear x y hx hy, xtime_linear x y hx hy]
  ac_rfl

theorem mul13_linear (x y : Nat) (hx : x < 256) (hy : y < 256) :
    mul13 (x ^^^ y) = mul13 x ^^^ mul13 y := by
  unfold mul13
  rw [xt3_linear x y hx hy, xt2_linear x y hx hy]
  ac_rfl

theorem mul14_linear (x y : Nat) (hx : x < 256) (hy : y < 256) :
    mul14 (x ^^^ y) = mul14 x ^^^ mul14 y := by
  unfold mul14
  rw [xt3_linear x y hx hy, xt2_linear x y hx hy, xtime_linear x y hx hy]
  ac_rfl

theorem mul2_lt {x : Nat} (hx : x < 256) : mul2 x < 256 := by
  have h : ∀ z < 256, mul2 z < 256 := by decide
  exact h x hx

theorem mul3_lt {x : Nat} (hx : x < 256) : mul3 x < 256 := by
  have h : ∀ z < 256, mul3 z < 256 := by decide
  exact h x hx

theorem mul9_lt {x : Nat} (hx : x < 256) : mul9 x < 256 := by
  have h : ∀ z < 256, mul9 z < 256 := by decide
  exact h x hx

theorem mul11_lt {x : Nat} (hx : x < 256) : mul11 x < 256 := by
  have h : ∀ z < 256, mul11 z < 256 := by decide
  exact h x hx

theorem mul13_lt {x : Nat} (hx : x < 256) : mul13 x < 256 := by
  have h : ∀ z < 256, mul13 z < 256 := by decide
  exact h x hx

theorem mul14_lt {x : Nat} (hx : x < 256) : mul14 x < 256 := by
  have h : ∀ z < 256, mul14 z < 256 := by decide
  exact h x hx

/-! ## Theorems: the InvMixColumns matrix inverts the MixColumns matrix -/

theorem kc0 : ∀ x < 256, mul14 (mul2 x) ^^^ mul11 x ^^^ mul13 x ^^^ mul9 (mul3 x) = x := by
  decide

theorem kc1 : ∀ x < 256, mul14 (mul3 x) ^^^ mul11 (mul2 x) ^^^ mul13 x ^^^ mul9 x = 0 := by
  decide

theorem kc2 : ∀ x < 256, mul14 x ^^^ mul11 (mul3 x) ^^^ mul13 (mul2 x) ^^^ mul9 x = 0 := by
  decide

theorem kc3 : ∀ x < 256, mul14 x ^^^ mul11 x ^^^ mul13 (mul3 x) ^^^ mul9 (mul2 x) = 0 := by
  decide

theorem mul14_xor4 (w x y z : Nat) (hw : w < 256) (hx : x < 256) (hy : y < 256) (hz : z < 256) :
    mul14 (w ^^^ x ^^^ y ^^^ z) = mul14 w ^^^ mul14 x ^^^ mul14 y ^^^ mul14 z := by
  rw [mul14_linear _ _ (xor8_lt (xor8_lt hw hx) hy) hz,
    mul14_linear _ _ (xor8_lt hw hx) hy, mul14_linear _ _ hw hx]

theorem mul11_xor4 (w x y z : Nat) (hw : w < 256) (hx : x < 256) (hy : y < 256) (hz : z < 256) :
    mul11 (w ^^^ x ^^^ y ^^^ z) = mul11 w ^^^ mul11 x ^^^ mul11 y ^^^ mul11 z := by
  rw [mul11_linear _ _ (xor8_lt (xor8_lt hw hx) hy) hz,
    mul11_linear _ _ (xor8_lt hw hx) hy, mul11_linear _ _ hw hx]

theorem mul13_xor4 (w x y z : Nat) (hw : w < 256) (hx : x < 256) (hy : y < 256) (hz : z < 256) :
    mul13 (w ^^^ x ^^^ y ^^^ z) = mul13 w ^^^ mul13 x ^^^ mul13 y ^^^ mul13 z := by
  rw [mul13_linear _ _ (xor8_lt (xor8_lt hw hx) hy) hz,
    mul13_linear _ _ (xor8_lt hw hx) hy, mul13_linear _ _ hw hx]

theorem mul9_xor4 (w x y z : Nat) (hw : w < 256) (hx : x < 256) (hy : y < 256) (hz : z < 256) :
    mul9 (w ^^^ x ^^^ y ^^^ z) = mul9 w ^^^ mul9 x ^^^ mul9 y ^^^ mul9 z := by
  rw [mul9_linear _ _ (xor8_lt (xor8_lt hw hx) hy) hz,
    mul9_linear _ _ (xor8_lt hw hx) hy, mul9_linear _ _ hw hx]

theorem ic_mc_col0 (a b c d : Nat) (ha : a < 256) (hb : b < 256) (hc : c < 256) (hd : d < 256) :
    ic0 (mc0 a b c d) (mc1 a b c d) (mc2 a b c d) (mc3 a b c d) = a := by
  unfold ic0 mc0 mc1 mc2 mc3
  rw [mul14_xor4 _ _ _ _ (mul2_lt ha) (mul3_lt hb) hc hd,
    mul11_xor4 _ _ _ _ ha (mul2_lt hb) (mul3_lt hc) hd,
    mul13_xor4 _ _ _ _ ha hb (mul2_lt hc) (mul3_lt hd),
    mul9_xor4 _ _ _ _ (mul3_lt ha) hb hc (mul2_lt hd)]
  calc mul14 (mul2 a) ^^^ mul14 (mul3 b) ^^^ mul14 c ^^^ mul14 d ^^^
      (mul11 a ^^^ mul11 (mul2 b) ^^^ mul11 (mul3 c) ^^^ mul11 d) ^^^
      (mul13 a ^^^ mul13 b ^^^ mul13 (mul2 c) ^^^ mul13 (mul3 d)) ^^^
      (mul9 (mul3 a) ^^^ mul9 b ^^^ mul9 c ^^^ mul9 (mul2 d))
      = (mul14 (mul2 a) ^^^ mul11 a ^^^ mul13 a ^^^ mul9 (mul3 a)) ^^^
        ((mul14 (mul3 b) ^^^ mul11 (mul2 b) ^^^ mul13 b ^^^ mul9 b) ^^^
         ((mul14 c ^^^ mul11 (mul3 c) ^^^ mul13 (mul2 c) ^^^ mul9 c) ^^^
          (mul14 d ^^^ mul11 d ^^^ mul13 (mul3 d) ^^^ mul9 (mul2 d)))) := by ac_rfl
  _ = a ^^^ (0 ^^^ (0 ^^^ 0)) := by rw [kc0 a ha, kc1 b hb, kc2 c hc, kc3 d hd]
  _ = a := by simp

theorem ic_mc_col1 (a b c d : Nat) (ha : a < 256) (hb : b < 256) (hc : c < 256) (hd : d < 256) :
    ic1 (mc0 a b c d) (mc1 a b c d) (mc2 a b c d) (mc3 a b c d) = b := by
  unfold ic1 mc0 mc1 mc2 mc3
  rw [mul9_xor4 _ _ _ _ (mul2_lt ha) (mul3_lt hb) hc hd,
    mul14_xor4 _ _ _ _ ha (mul2_lt hb) (mul3_lt hc) hd,
    mul11_xor4 _ _ _ _ ha hb (mul2_lt hc) (mul3_lt hd),
    mul13_xor4 _ _ _ _ (mul3_lt ha) hb hc (mul2_lt hd)]
  calc mul9 (mul2 a) ^^^ mul9 (mul3 b) ^^^ mul9 c ^^^ mul9 d ^^^
      (mul14 a ^^^ mul14 (mul2 b) ^^^ mul14 (mul3 c) ^^^ mul14 d) ^^^
      (mul11 a ^^^ mul11 b ^^^ mul11 (mul2 c) ^^^ mul11 (mul3 d)) ^^^
      (mul13 (mul3 a) ^^^ mul13 b ^^^ mul13 c ^^^ mul13 (mul2 d))
      = (mul14 a ^^^ mul11 a ^^^ mul13 (mul3 a) ^^^ mul9 (mul2 a)) ^^^
        ((mul14 (mul2 b) ^^^ mul11 b ^^^ mul13 b ^^^ mul9 (mul3 b)) ^^^
         ((mul14 (mul3 c) ^^^ mul11 (mul2 c) ^^^ mul13 c ^^^ mul9 c) ^^^
          (mul14 d ^^^ mul11 (mul3 d) ^^^ mul13 (mul2 d) ^^^ mul9 d))) := by ac_rfl
  _ = 0 ^^^ (b ^^^ (0 ^^^ 0)) := by rw [kc3 a ha, kc0 b hb, kc1 c hc, kc2 d hd]
  _ = b := by simp

theorem ic_mc_col2 (a b c d : Nat) (ha : a < 256) (hb : b < 256) (hc : c < 256) (hd : d < 256) :
    ic2 (mc0 a b c d) (mc1 a b c d) (mc2 a b c d) (mc3 a b c d) = c := by
  unfold ic2 mc0 mc1 mc2 mc3
  rw [mul13_xor4 _ _ _ _ (mul2_lt ha) (mul3_lt hb) hc hd,
    mul9_xor4 _ _ _ _ ha (mul2_lt hb) (mul3_lt hc) hd,
    mul14_xor4 _ _ _ _ ha hb (mul2_lt hc) (mul3_lt hd),
    mul11_xor4 _ _ _ _ (mul3_lt ha) hb hc (mul2_lt hd)]
  calc mul13 (mul2 a) ^^^ mul13 (mul3 b) ^^^ mul13 c ^^^ mul13 d ^^^
      (mul9 a ^^^ mul9 (mul2 b) ^^^ mul9 (mul3 c) ^^^ mul9 d) ^^^
      (mul14 a ^^^ mul14 b ^^^ mul14 (mul2 c) ^^^ mul14 (mul3 d)) ^^^
      (mul11 (mul3 a) ^^^ mul11 b ^^^ mul11 c ^^^ mul11 (mul2 d))
      = (mul14 a ^^^ mul11 (mul3 a) ^^^ mul13 (mul2 a) ^^^ mul9 a) ^^^
        ((mul14 b ^^^ mul11 b ^^^ mul13 (mul3 b) ^^^ mul9 (mul2 b)) ^^^
         ((mul14 (mul2 c) ^^^ mul11 c ^^^ mul13 c ^^^ mul9 (mul3 c)) ^^^
          (mul14 (mul3 d) ^^^ mul11 (mul2 d) ^^^ mul13 d ^^^ mul9 d))) := by ac_rfl
  _ = 0 ^^^ (0 ^^^ (c ^^^ 0)) := by rw [kc2 a ha, kc3 b hb, kc0 c hc, kc1 d hd]
  _ = c := by simp

theorem ic_mc_col3 (a b c d : Nat) (ha : a < 256) (hb : b < 256) (hc : c < 256) (hd : d < 256) :
    ic3 (mc0 a b c d) (mc1 a b c d) (mc2 a b c d) (mc3 a b c d) = d := by
  unfold ic3 mc0 mc1 mc2 mc3
  rw [mul11_xor4 _ _ _ _ (mul2_lt ha) (mul3_lt hb) hc hd,
    mul13_xor4 _ _ _ _ ha (mul2_lt hb) (mul3_lt hc) hd,
    mul9_xor4 _ _ _ _ ha hb (mul2_lt hc) (mul3_lt hd),
    mul14_xor4 _ _ _ _ (mul3_lt ha) hb hc (mul2_lt hd)]
  calc mul11 (mul2 a) ^^^ mul11 (mul3 b) ^^^ mul11 c ^^^ mul11 d ^^^
      (mul13 a ^^^ mul13 (mul2 b) ^^^ mul13 (mul3 c) ^^^ mul13 d) ^^^
      (mul9 a ^^^ mul9 b ^^^ mul9 (mul2 c) ^^^ mul9 (mul3 d)) ^^^
      (mul14 (mul3 a) ^^^ mul14 b ^^^ mul14 c ^^^ mul14 (mul2 d))
      = (mul14 (mul3 a) ^^^ mul11 (mul2 a) ^^^ mul13 a ^^^ mul9 a) ^^^
        ((mul14 b ^^^ mul11 (mul3 b) ^^^ mul13 (mul2 b) ^^^ mul9 b) ^^^
         ((mul14 c ^^^ mul11 c ^^^ mul13 (mul3 c) ^^^ mul9 (mul2 c)) ^^^
          (mul14 (mul2 d) ^^^ mul11 d ^^^ mul13 d ^^^ mul9 (mul3 d)))) := by ac_rfl
  _ = 0 ^^^ (0 ^^^ (0 ^^^ d)) := by rw [kc1 a ha, kc2 b hb, kc3 c hc, kc0 d hd]
  _ = d := by simp

/-! ## Theorems: the S-box tables -/

theorem sbox_lt (x : Nat) : sbox x < 256 := by
  rcases Nat.lt_or_ge x 256 with h | h
  · have hall : ∀ z < 256, sbox z < 256 := by decide
    exact hall x h
  · unfold sbox
    have hlen : sboxT.length = 256 := rfl
    rw [List.getD_eq_default _ _ (by rw [hlen]; exact h)]
    omega

theorem invSbox_sbox {x : Nat} (h : x < 256) : invSbox (sbox x) = x := by
  have hall : ∀ z < 256, invSbox (sbox z) = z := by decide
  exact hall x h

/-! ## Theorems: AES state operations invert each other -/

theorem invShiftRows_shiftRows (t : St) : invShiftRows (shiftRows t) = t := rfl

theorem addRK_cancel (t k : St) : addRK (addRK t k) k = t := by
  cases t; cases k; simp [addRK, Nat.xor_cancel_right]

theorem subBytes_valid (t : St) : validSt (subBytes t) :=
  ⟨sbox_lt _, sbox_lt _, sbox_lt _, sbox_lt _, sbox_lt _, sbox_lt _, sbox_lt _, sbox_lt _,
   sbox_lt _, sbox_lt _, sbox_lt _, sbox_lt _, sbox_lt _, sbox_lt _, sbox_lt _, sbox_lt _⟩

theorem shiftRows_valid {t : St} (ht : validSt t) : validSt (shiftRows t) := by
  obtain ⟨h0, h1, h2, h3, h4, h5, h6, h7, h8, h9, h10, h11, h12, h13, h14, h15⟩ := ht
  exact ⟨h0, h5, h10, h15, h4, h9, h14, h3, h8, h13, h2, h7, h12, h1, h6, h11⟩

theorem addRK_valid {t k : St} (ht : validSt t) (hk : validSt k) : validSt (addRK t k) := by
  obtain ⟨h0, h1, h2, h3, h4, h5, h6, h7, h8, h9, h10, h11, h12, h13, h14, h15⟩ := ht
  obtain ⟨g0, g1, g2, g3, g4, g5, g6, g7, g8, g9, g10, g11, g12, g13, g14, g15⟩ := hk
  exact ⟨xor8_lt h0 g0, xor8_lt h1 g1, xor8_lt h2 g2, xor8_lt h3 g3,
    xor8_lt h4 g4, xor8_lt h5 g5, xor8_lt h6 g6, xor8_lt h7 g7,
    xor8_lt h8 g8, xor8_lt h9 g9, xor8_lt h10 g10, xor8_lt h11 g11,
    xor8_lt h12 g12, xor8_lt h13 g13, xor8_lt h14 g14, xor8_lt h15 g15⟩

theorem mc0_lt {a b c d : Nat} (ha : a < 256) (hb : b < 256) (hc : c < 256) (hd : d < 256) :
    mc0 a b c d < 256 := xor8_lt (xor8_lt (xor8_lt (mul2_lt ha) (mul3_lt hb)) hc) hd

theorem mc1_lt {a b c d : Nat} (ha : a < 256) (hb : b < 256) (hc : c < 256) (hd : d < 256) :
    mc1 a b c d < 256 := xor8_lt (xor8_lt (xor8_lt ha (mul2_lt hb)) (mul3_lt hc)) hd

theorem mc2_lt {a b c d : Nat} (ha : a < 256) (hb : b < 256) (hc : c < 256) (hd : d < 256) :
    mc2 a b c d < 256 := xor8_lt (xor8_lt (xor8_lt ha hb) (mul2_lt hc)) (mul3_lt hd)

theorem mc3_lt {a b c d : Nat} (ha : a < 256) (hb : b < 256) (hc : c < 256) (hd : d < 256) :
    mc3 a b c d < 256 := xor8_lt (xor8_lt (xor8_lt (mul3_lt ha) hb) hc) (mul2_lt hd)

theorem mixCols_valid {t : St} (ht : validSt t) : validSt (mixCols t) := by
  obtain ⟨h0, h1, h2, h3, h4, h5, h6, h7, h8, h9, h10, h11, h12, h13, h14, h15⟩ := ht
  exact ⟨mc0_lt h0 h1 h2 h3, mc1_lt h0 h1 h2 h3, mc2_lt h0 h1 h2 h3, mc3_lt h0 h1 h2 h3,
    mc0_lt h4 h5 h6 h7, mc1_lt h4 h5 h6 h7, mc2_lt h4 h5 h6 h7, mc3_lt h4 h5 h6 h7,
    mc0_lt h8 h9 h10 h11, mc1_lt h8 h9 h10 h11, mc2_lt h8 h9 h10 h11, mc3_lt h8 h9 h10 h11,
    mc0_lt h12 h13 h14 h15, mc1_lt h12 h13 h14 h15, mc2_lt h12 h13 h14 h15, mc3_lt h12 h13 h14 h15⟩

theorem invSubBytes_subBytes {t : St} (ht : validSt t) : invSubBytes (subBytes t) = t := by
  obtain ⟨h0, h1, h2, h3, h4, h5, h6, h7, h8, h9, h10, h11, h12, h13, h14, h15⟩ := ht
  cases t
  simp only [subBytes, invSubBytes, St.mk.injEq]
  exact ⟨invSbox_sbox h0, invSbox_sbox h1, invSbox_sbox h2, invSbox_sbox h3,
    invSbox_sbox h4, invSbox_sbox h5, invSbox_sbox h6, invSbox_sbox h7,
    invSbox_sbox h8, invSbox_sbox h9, invSbox_sbox h10, invSbox_sbox h11,
    invSbox_sbox h12, invSbox_sbox h13, invSbox_sbox h14, invSbox_sbox h15⟩

theorem invMixCols_mixCols {t : St} (ht : validSt t) : invMixCols (mixCols t) = t := by
  obtain ⟨h0, h1, h2, h3, h4, h5, h6, h7, h8, h9, h10, h11, h12, h13, h14, h15⟩ := ht
  cases t
  simp only [mixCols, invMixCols, St.mk.injEq]
  exact ⟨ic_mc_col0 _ _ _ _ h0 h1 h2 h3, ic_mc_col1 _ _ _ _ h0 h1 h2 h3,
    ic_mc_col2 _ _ _ _ h0 h1 h2 h3, ic_mc_col3 _ _ _ _ h0 h1 h2 h3,
    ic_mc_col0 _ _ _ _ h4 h5 h6 h7, ic_mc_col1 _ _ _ _ h4 h5 h6 h7,
    ic_mc_col2 _ _ _ _ h4 h5 h6 h7, ic_mc_col3 _ _ _ _ h4 h5 h6 h7,
    ic_mc_col0 _ _ _ _ h8 h9 h10 h11, ic_mc_col1 _ _ _ _ h8 h9 h10 h11,
    ic_mc_col2 _ _ _ _ h8 h9 h10 h11, ic_mc_col3 _ _ _ _ h8 h9 h10 h11,
    ic_mc_col0 _ _ _ _ h12 h13 h14 h15, ic_mc_col1 _ _ _ _ h12 h13 h14 h15,
    ic_mc_col2 _ _ _ _ h12 h13 h14 h15, ic_mc_col3 _ _ _ _ h12 h13 h14 h15⟩

/-! ## Theorems: the block cipher inverts itself -/

theorem encMid_valid {m : St} (s : St) (hm : validSt m) : validSt (encMid s m) :=
  addRK_valid (mixCols_valid (shiftRows_valid (subBytes_valid s))) hm

theorem invEncMid_encMid {m s : St} (hs : validSt s) (hm : validSt m) :
    invEncMid m (encMid s m) = s := by
  unfold invEncMid encMid
  rw [addRK_cancel, invMixCols_mixCols (shiftRows_valid (subBytes_valid s)),
    invShiftRows_shiftRows, invSubBytes_subBytes hs]

theorem foldl_encMid_valid {mids : List St} {s : St} (hs : validSt s)
    (hm : ∀ m ∈ mids, validSt m) : validSt (List.foldl encMid s mids) := by
  induction mids generalizing s with
  | nil => exact hs
  | cons m rest ih =>
    exact ih (encMid_valid s (hm m (by simp))) (fun k hk => hm k (by simp [hk]))

theorem foldr_invEncMid_cancel {mids : List St} {s : St} (hs : validSt s)
    (hm : ∀ m ∈ mids, validSt m) :
    List.foldr invEncMid (List.foldl encMid s mids) mids = s := by
  induction mids generalizing s with
  | nil => rfl
  | cons m rest ih =>
    show invEncMid m (List.foldr invEncMid (List.foldl encMid (encMid s m) rest) rest) = s
    rw [ih (encMid_valid s (hm m (by simp))) (fun k hk => hm k (by simp [hk]))]
    exact invEncMid_encMid hs (hm m (by simp))

theorem encBlockSt_valid {rk : RKeys} (hrk : validRK rk) (t : St) :
    validSt (encBlockSt rk t) :=
  addRK_valid (shiftRows_valid (subBytes_valid _)) hrk.2.2

theorem decBlockSt_encBlockSt {rk : RKeys} (hrk : validRK rk) {t : St} (ht : validSt t) :
    decBlockSt rk (encBlockSt rk t) = t := by
  obtain ⟨hf, hm, hl⟩ := hrk
  unfold decBlockSt encBlockSt
  rw [addRK_cancel, invShiftRows_shiftRows,
    invSubBytes_subBytes (foldl_encMid_valid (addRK_valid ht hf) hm),
    foldr_invEncMid_cancel (addRK_valid ht hf) hm, addRK_cancel]

/-! ## Theorems: round keys and byte-list blocks -/

theorem stOfWords_valid (w0 w1 w2 w3 : Nat) : validSt (stOfWords w0 w1 w2 w3) :=
  ⟨Nat.mod_lt _ (by omega), Nat.mod_lt _ (by omega), Nat.mod_lt _ (by omega),
   Nat.mod_lt _ (by omega), Nat.mod_lt _ (by omega), Nat.mod_lt _ (by omega),
   Nat.mod_lt _ (by omega), Nat.mod_lt _ (by omega), Nat.mod_lt _ (by omega),
   Nat.mod_lt _ (by omega), Nat.mod_lt _ (by omega), Nat.mod_lt _ (by omega),
   Nat.mod_lt _ (by omega), Nat.mod_lt _ (by omega), Nat.mod_lt _ (by omega),
   Nat.mod_lt _ (by omega)⟩

theorem roundKey_valid (ws : List Nat) (r : Nat) : validSt (roundKey ws r) :=
  stOfWords_valid _ _ _ _

theorem expandKey_valid (key : List Nat) : validRK (expandKey key) := by
  refine ⟨roundKey_valid _ _, ?_, roundKey_valid _ _⟩
  intro m hm
  simp only [expandKey, List.mem_cons, List.not_mem_nil, or_false] at hm
  rcases hm with rfl | rfl | rfl | rfl | rfl | rfl | rfl | rfl | rfl | rfl | rfl | rfl | rfl <;>
    exact roundKey_valid _ _

theorem getD_byte {l : List Nat} (h : bytesValid l) (n : Nat) : l.getD n 0 < 256 := by
  rcases Nat.lt_or_ge n l.length with hn | hn
  · rw [List.getD_eq_getElem l 0 hn]
    exact h _ (List.getElem_mem hn)
  · rw [List.getD_eq_default l 0 hn]
    omega

theorem listToSt_valid {l : List Nat} (h : bytesValid l) : validSt (listToSt l) :=
  ⟨getD_byte h 0, getD_byte h 1, getD_byte h 2, getD_byte h 3,
   getD_byte h 4, getD_byte h 5, getD_byte h 6, getD_byte h 7,
   getD_byte h 8, getD_byte h 9, getD_byte h 10, getD_byte h 11,
   getD_byte h 12, getD_byte h 13, getD_byte h 14, getD_byte h 15⟩

theorem stToList_valid {t : St} (ht : validSt t) : bytesValid (stToList t) := by
  obtain ⟨h0, h1, h2, h3, h4, h5, h6, h7, h8, h9, h10, h11, h12, h13, h14, h15⟩ := ht
  intro b hb
  simp only [stToList, List.mem_cons, List.not_mem_nil, or_false] at hb
  omega

theorem stToList_length (t : St) : (stToList t).length = 16 := rfl

theorem listToSt_stToList (t : St) : listToSt (stToList t) = t := rfl

theorem stToList_listToSt {l : List Nat} (h : l.length = 16) : stToList (listToSt l) = l := by
  apply List.ext_getElem
  · rw [stToList_length, h]
  · intro i h1 h2
    rw [stToList_length] at h1
    interval_cases i <;>
      simp only [stToList, listToSt, List.getElem_cons_zero, List.getElem_cons_succ] <;>
      rw [List.getD_eq_getElem l 0 (by omega)]

theorem aesEncBlock_length (rk : RKeys) (b : List Nat) : (aesEncBlock rk b).length = 16 := rfl

theorem aesEncBlock_valid {rk : RKeys} (hrk : validRK rk) (b : List Nat) :
    bytesValid (aesEncBlock rk b) := stToList_valid (encBlockSt_valid hrk _)

theorem aesDecBlock_aesEncBlock {rk : RKeys} (hrk : validRK rk) {b : List Nat}
    (hb : bytesValid b) (hlen : b.length = 16) : aesDecBlock rk (aesEncBlock rk b) = b := by
  unfold aesDecBlock aesEncBlock
  rw [listToSt_stToList, decBlockSt_encBlockSt hrk (listToSt_valid hb), stToList_listToSt hlen]

/-! ## Theorems: xor of byte lists -/

theorem xorBytes_length (a b : List Nat) : (xorBytes a b).length = min a.length b.length :=
  List.length_zipWith _ _ _

theorem xorBytes_cancel (a : List Nat) : ∀ b, a.length ≤ b.length →
    xorBytes (xorBytes a b) b = a := by
  induction a with
  | nil => intro b _; rfl
  | cons x a ih =>
    intro b h
    cases b with
    | nil => simp at h
    | cons y b =>
      simp only [xorBytes, List.zipWith_cons_cons] at *
      rw [Nat.xor_cancel_right y x, ih b (by simpa using h)]

theorem xorBytes_valid (a : List Nat) : ∀ b, bytesValid a → bytesValid b →
    bytesValid (xorBytes a b) := by
  induction a with
  | nil => intro b _ _ c hc; simp [xorBytes] at hc
  | cons x a ih =>
    intro b ha hb
    cases b with
    | nil => intro c hc; simp [xorBytes] at hc
    | cons y b =>
      intro c hc
      simp only [xorBytes, List.zipWith_cons_cons, List.mem_cons] at hc
      rcases hc with rfl | hc
      · exact xor8_lt (ha x (by simp)) (hb y (by simp))
      · exact ih b (fun z hz => ha z (by simp [hz])) (fun z hz => hb z (by simp [hz])) c hc

/-! ## Theorems: CBC chaining -/

theorem cbcEncAux_length (rk : RKeys) : ∀ (f : Nat) (prev pt : List Nat),
    pt.length ≤ 16 * f → pt.length % 16 = 0 → (cbcEncAux rk f prev pt).length = pt.length := by
  intro f
  induction f with
  | zero =>
    intro prev pt h1 _
    have h : pt = [] := List.length_eq_zero.mp (by omega)
    subst h; rfl
  | succ f ih =>
    intro prev pt h1 h2
    by_cases hp : pt = []
    · subst hp; simp [cbcEncAux]
    · have hne : pt.length ≠ 0 := fun h => hp (List.length_eq_zero.mp h)
      have hlen : 16 ≤ pt.length := by omega
      simp only [cbcEncAux, if_neg hp, List.length_append, aesEncBlock_length]
      rw [ih _ (pt.drop 16) (by simp [List.length_drop]; omega) (by simp [List.length_drop]; omega)]
      simp [List.length_drop]
      omega

theorem cbcDecAux_nil (rk : RKeys) (g : Nat) (prev : List Nat) :
    cbcDecAux rk g prev [] = [] := by
  cases g <;> simp [cbcDecAux]

theorem cbcDecAux_cbcEncAux (rk : RKeys) (hrk : validRK rk) : ∀ (f g : Nat) (prev pt : List Nat),
    pt.length ≤ 16 * f → pt.length ≤ 16 * g → pt.length % 16 = 0 →
    bytesValid pt → bytesValid prev → prev.length = 16 →
    cbcDecAux rk g prev (cbcEncAux rk f prev pt) = pt := by
  intro f
  induction f with
  | zero =>
    intro g prev pt h1 _ _ _ _ _
    have h : pt = [] := List.length_eq_zero.mp (by omega)
    subst h
    simp [cbcEncAux, cbcDecAux_nil]
  | succ f ih =>
    intro g prev pt h1 h2 h3 hpt hprev hprevlen
    by_cases hp : pt = []
    · subst hp
      simp [cbcEncAux, cbcDecAux_nil]
    · have hne : pt.length ≠ 0 := fun h => hp (List.length_eq_zero.mp h)
      have hlen : 16 ≤ pt.length := by omega
      obtain ⟨g', rfl⟩ : ∃ g'', g = g'' + 1 := by
        cases g with
        | zero => exfalso; omega
        | succ g'' => exact ⟨g'', rfl⟩
      have htake : (pt.take 16).length = 16 := by
        rw [List.length_take]; omega
      have htakev : bytesValid (pt.take 16) := fun z hz => hpt z (List.mem_of_mem_take hz)
      have hb0len : (xorBytes (pt.take 16) prev).length = 16 := by
        rw [xorBytes_length, htake, hprevlen]; omega
      have hb0v : bytesValid (xorBytes (pt.take 16) prev) :=
        xorBytes_valid _ _ htakev hprev
      have hc16 : (aesEncBlock rk (xorBytes (pt.take 16) prev)).length = 16 :=
        aesEncBlock_length _ _
      have hcne : aesEncBlock rk (xorBytes (pt.take 16) prev) ++
          cbcEncAux rk f (aesEncBlock rk (xorBytes (pt.take 16) prev)) (pt.drop 16) ≠ [] := by
        intro hnil
        rcases List.append_eq_nil.mp hnil with ⟨hal, _⟩
        rw [hal] at hc16
        simp at hc16
      simp only [cbcEncAux, if_neg hp, cbcDecAux, if_neg hcne]
      rw [List.take_left' hc16, List.drop_left' hc16,
        aesDecBlock_aesEncBlock hrk hb0v hb0len,
        xorBytes_cancel _ _ (by rw [htake, hprevlen]),
        ih g' _ (pt.drop 16) (by simp [List.length_drop]; omega)
          (by simp [List.length_drop]; omega) (by simp [List.length_drop]; omega)
          (fun z hz => hpt z (List.mem_of_mem_drop hz))
          (aesEncBlock_valid hrk _) hc16]
      exact List.take_append_drop 16 pt

/-! ## Claim theorems -/

/-- Claim C1: for every valid ephemeral key pair and every peer public key that
is the EcdhEsHkdf256Key COSE variant whose coordinates are 32-byte encodings of
a valid point on P-256, encapsulate returns Ok of a local COSE public key whose
coordinates are each exactly 32 bytes together with a 32-byte shared secret
equal to SHA-256 of the 32 raw x-coordinate bytes of the scalar multiplication
of the peer point by the engine private scalar. -/
theorem encapsulate_valid_peer_ok (e : Engine) (xb yb : List Nat) (he : engineValid e)
    (hx : xb.length = 32) (hy : yb.length = 32)
    (hc : onCurve (bytesToNatBE xb) (bytesToNatBE yb)) :
    ∃ lx ly s,
      encapsulate e (CoseKey.EcdhEsHkdf256Key xb yb) = Except.ok (CoseKey.P256Key lx ly, s) ∧
      lx.length = 32 ∧ ly.length = 32 ∧ s.length = 32 ∧
      s = sha256 (natToBytesBE 32 (affX (smul e.d (some (bytesToNatBE xb, bytesToNatBE yb))))) := by
  refine ⟨natToBytesBE 32 e.qx, natToBytesBE 32 e.qy,
    sha256 (natToBytesBE 32 (affX (smul e.d (some (bytesToNatBE xb, bytesToNatBE yb))))),
    ?_, natToBytesBE_length _ _, natToBytesBE_length _ _, sha256_length _, rfl⟩
  simp [encapsulate, ecdh, hc, get_public_key, kdf]

/-- Witness for C1 at the engine with scalar 1 and the base point as peer. -/
theorem encapsulate_valid_peer_ok_witness :
    engineValid ⟨1, gX, gY⟩ ∧ (natToBytesBE 32 gX).length = 32 ∧
    (natToBytesBE 32 gY).length = 32 ∧
    onCurve (bytesToNatBE (natToBytesBE 32 gX)) (bytesToNatBE (natToBytesBE 32 gY)) ∧
    (∃ lx ly s,
      encapsulate ⟨1, gX, gY⟩
          (CoseKey.EcdhEsHkdf256Key (natToBytesBE 32 gX) (natToBytesBE 32 gY)) =
        Except.ok (CoseKey.P256Key lx ly, s) ∧
      lx.length = 32 ∧ ly.length = 32 ∧ s.length = 32 ∧
      s = sha256 (natToBytesBE 32 (affX (smul (Engine.mk 1 gX gY).d
        (some (bytesToNatBE (natToBytesBE 32 gX), bytesToNatBE (natToBytesBE 32 gY))))))) :=
  ⟨by decide, natToBytesBE_length _ _, natToBytesBE_length _ _, by decide,
    encapsulate_valid_peer_ok ⟨1, gX, gY⟩ _ _ (by decide)
      (natToBytesBE_length _ _) (natToBytesBE_length _ _) (by decide)⟩

/-- Claim C2: for every 32-byte key and every plaintext of bytes whose length is
a multiple of 16, encrypt succeeds and decrypt of its output under the same key
recovers the plaintext exactly. -/
theorem decrypt_encrypt_roundtrip (key pt : List Nat) (hk : key.length = 32)
    (hpt : pt.length % 16 = 0) (hptv : bytesValid pt) :
    ∃ ct, encrypt key pt = Except.ok ct ∧ decrypt key ct = Except.ok pt := by
  have hctlen : (cbcEncAux (expandKey key) pt.length iv16 pt).length = pt.length :=
    cbcEncAux_length _ _ _ _ (by omega) hpt
  refine ⟨cbcEncAux (expandKey key) pt.length iv16 pt, by simp [encrypt, hk], ?_⟩
  have hiv : bytesValid iv16 := by
    intro b hb
    rw [iv16, List.mem_replicate] at hb
    omega
  have hdec : cbcDecAux (expandKey key) pt.length iv16
      (cbcEncAux (expandKey key) pt.length iv16 pt) = pt :=
    cbcDecAux_cbcEncAux _ (expandKey_valid key) pt.length pt.length iv16 pt
      (by omega) (by omega) hpt hptv hiv rfl
  simp only [decrypt, hctlen]
  rw [if_neg (show ¬ (pt.length % 16 ≠ 0) by omega), if_pos hk, hdec]

/-- Witness for C2 at an all-zero 32-byte key and a 16-byte plaintext. -/
theorem decrypt_encrypt_roundtrip_witness :
    (List.replicate 32 0).length = 32 ∧ (List.replicate 16 7).length % 16 = 0 ∧
    bytesValid (List.replicate 16 7) ∧
    ∃ ct, encrypt (List.replicate 32 0) (List.replicate 16 7) = Except.ok ct ∧
      decrypt (List.replicate 32 0) ct = Except.ok (List.replicate 16 7) :=
  ⟨by decide, by decide, by decide,
    decrypt_encrypt_roundtrip _ _ (by decide) (by decide) (by decide)⟩

/-- Claim C3: decrypt rejects every ciphertext whose length is not a multiple of
16, for every key, with the generic CTAP other error; it never returns Ok on
such input. -/
theorem decrypt_misaligned_error (key ct : List Nat) (h : ct.length % 16 ≠ 0) :
    decrypt key ct = Except.error (Error.ctap CtapError.other) := by
  simp [decrypt, h]

/-- Witness for C3 at a 15-byte ciphertext. -/
theorem decrypt_misaligned_error_witness :
    decrypt (List.replicate 32 0) (List.replicate 15 0) =
      Except.error (Error.ctap CtapError.other) :=
  decrypt_misaligned_error _ _ (by decide)

/-- Claim C4: encapsulate fails with the generic CTAP other error both when the
peer key is any COSE variant other than EcdhEsHkdf256Key and when the peer
coordinates (32 bytes each) do not describe a valid point on P-256; the two
failure causes surface the same error value. -/
theorem encapsulate_error_cases (e : Engine) (peer : CoseKey) :
    ((∀ xb yb, peer ≠ CoseKey.EcdhEsHkdf256Key xb yb) →
      encapsulate e peer = Except.error (Error.ctap CtapError.other)) ∧
    (∀ xb yb, peer = CoseKey.EcdhEsHkdf256Key xb yb → xb.length = 32 → yb.length = 32 →
      ¬ onCurve (bytesToNatBE xb) (bytesToNatBE yb) →
      encapsulate e peer = Except.error (Error.ctap CtapError.other)) := by
  constructor
  · intro h
    cases peer with
    | P256Key xb yb => simp [encapsulate, ecdh]
    | EcdhEsHkdf256Key xb yb => exact absurd rfl (h xb yb)
    | Ed25519Key xb => simp [encapsulate, ecdh]
  · rintro xb yb rfl _ _ hnc
    simp [encapsulate, ecdh, hnc]

/-- Witness for C4: a wrong-variant peer key and the all-zero off-curve
coordinates both produce the CTAP other error. -/
theorem encapsulate_error_cases_witness :
    encapsulate ⟨1, gX, gY⟩ (CoseKey.Ed25519Key []) =
      Except.error (Error.ctap CtapError.other) ∧
    encapsulate ⟨1, gX, gY⟩
        (CoseKey.EcdhEsHkdf256Key (List.replicate 32 0) (List.replicate 32 0)) =
      Except.error (Error.ctap CtapError.other) :=
  ⟨(encapsulate_error_cases _ _).1 (fun _ _ h => CoseKey.noConfusion h),
   (encapsulate_error_cases _ _).2 (List.replicate 32 0) (List.replicate 32 0) rfl
     (by decide) (by decide) (by decide)⟩

/-- Claim C5, counterexample: decrypt with a 31-byte key on an aligned
ciphertext and decrypt with a 32-byte key on a misaligned ciphertext return the
very same error value, the generic CTAP other error, so the two failure causes
are not distinguishable by error value. -/
theorem decrypt_error_kinds_indistinct_cex :
    decrypt (List.replicate 31 0) (List.replicate 16 0) =
      decrypt (List.replicate 32 0) (List.replicate 15 0) ∧
    decrypt (List.replicate 31 0) (List.replicate 16 0) =
      Except.error (Error.ctap CtapError.other) := by
  constructor <;> rfl

/-- Claim C5 as amended: an invalid key size (on an aligned ciphertext) and a
misaligned ciphertext both make decrypt fail with one and the same generic
error value, Ctap other; the two causes are not distinguished. -/
theorem decrypt_error_value_amended (key ct : List Nat) :
    (ct.length % 16 ≠ 0 → decrypt key ct = Except.error (Error.ctap CtapError.other)) ∧
    (ct.length % 16 = 0 → key.length ≠ 32 →
      decrypt key ct = Except.error (Error.ctap CtapError.other)) := by
  constructor
  · intro h
    simp [decrypt, h]
  · intro h hk
    simp [decrypt, h, hk]

/-- Witness for the amended C5. -/
theorem decrypt_error_value_amended_witness :
    decrypt (List.replicate 32 0) (List.replicate 15 0) =
      Except.error (Error.ctap CtapError.other) ∧
    decrypt (List.replicate 31 0) (List.replicate 16 0) =
      Except.error (Error.ctap CtapError.other) :=
  ⟨(decrypt_error_value_amended _ _).1 (by decide),
   (decrypt_error_value_amended _ _).2 (by decide) (by decide)⟩

/-- Claim C6: with a 32-byte key and a block-aligned plaintext, encrypt returns
Ok of a ciphertext of the same length as the plaintext; with a key of any other
length it returns the protocol error. -/
theorem encrypt_length_and_key_check (key pt : List Nat) :
    (key.length = 32 → pt.length % 16 = 0 →
      ∃ ct, encrypt key pt = Except.ok ct ∧ ct.length = pt.length) ∧
    (key.length ≠ 32 → encrypt key pt = Except.error (Error.ctap CtapError.other)) := by
  constructor
  · intro hk hpt
    exact ⟨cbcEncAux (expandKey key) pt.length iv16 pt, by simp [encrypt, hk],
      cbcEncAux_length _ _ _ _ (by omega) hpt⟩
  · intro hk
    simp [encrypt, hk]

/-- Witness for C6 at a 32-byte key (success side) and a 31-byte key (error
side). -/
theorem encrypt_length_and_key_check_witness :
    (∃ ct, encrypt (List.replicate 32 0) (List.replicate 16 0) = Except.ok ct ∧
      ct.length = (List.replicate 16 0).length) ∧
    encrypt (List.replicate 31 0) [] = Except.error (Error.ctap CtapError.other) :=
  ⟨(encrypt_length_and_key_check _ _).1 (by decide) (by decide),
   (encrypt_length_and_key_check _ _).2 (by decide)⟩

/-- Claim C7: authenticate accepts any key and message, always succeeds, and
returns exactly the first 16 bytes of HMAC-SHA-256 of the message under the
key; it is deterministic in its inputs. -/
theorem authenticate_first16_hmac (key message : List Nat) :
    authenticate key message = (hmac_sha256 key message).take 16 ∧
    (authenticate key message).length = 16 ∧
    authenticate key message = authenticate key message := by
  refine ⟨rfl, ?_, rfl⟩
  rw [authenticate, List.length_take, hmac_sha256_length]
  omega

/-- Claim C8: pin_hash returns exactly the first 16 bytes of SHA-256 of its
input, for every input including the empty one; it is a total deterministic
function always returning 16 bytes. -/
theorem pin_hash_first16_sha256 (pin : List Nat) :
    pin_hash pin = (sha256 pin).take 16 ∧ (pin_hash pin).length = 16 ∧
    pin_hash pin = pin_hash pin := by
  refine ⟨rfl, ?_, rfl⟩
  rw [pin_hash, List.length_take, sha256_length]
  omega

/-- Claim C9: encapsulate leaves the engine state unchanged, and a repeated
call on the resulting state with the same peer key returns the identical
result, shared secret included. -/
theorem encapsulate_no_mutation (e : Engine) (peer : CoseKey) :
    (encapsulateS e peer).2 = e ∧
    (encapsulateS (encapsulateS e peer).2 peer).1 = (encapsulateS e peer).1 :=
  ⟨rfl, rfl⟩

/-- Claim C10: the local public key produced by a successful encapsulate is the
P256Key COSE variant, which a peer engine in turn rejects: feeding it into
another encapsulate always yields the unsupported-format error. -/
theorem encapsulate_output_rejected_by_peer (e1 e2 : Engine) (peer k : CoseKey)
    (s : List Nat) (h : encapsulate e1 peer = Except.ok (k, s)) :
    encapsulate e2 k = Except.error (Error.ctap CtapError.other) := by
  have hk : k = CoseKey.P256Key (natToBytesBE 32 e1.qx) (natToBytesBE 32 e1.qy) := by
    cases peer with
    | P256Key xb yb => simp [encapsulate, ecdh] at h
    | EcdhEsHkdf256Key xb yb =>
      by_cases hc : onCurve (bytesToNatBE xb) (bytesToNatBE yb)
      · simp [encapsulate, ecdh, hc, get_public_key] at h
        exact h.1.symm
      · simp [encapsulate, ecdh, hc] at h
    | Ed25519Key xb => simp [encapsulate, ecdh] at h
  subst hk
  simp [encapsulate, ecdh]

/-- Witness for C10: the output of one engine fed to another engine. -/
theorem encapsulate_output_rejected_by_peer_witness :
    encapsulate ⟨2, gX, gY⟩ (CoseKey.P256Key (natToBytesBE 32 gX) (natToBytesBE 32 gY)) =
      Except.error (Error.ctap CtapError.other) :=
  encapsulate_output_rejected_by_peer ⟨1, gX, gY⟩ ⟨2, gX, gY⟩
    (CoseKey.EcdhEsHkdf256Key (natToBytesBE 32 gX) (natToBytesBE 32 gY))
    (CoseKey.P256Key (natToBytesBE 32 gX) (natToBytesBE 32 gY))
    (kdf (natToBytesBE 32 (affX (smul 1
      (some (bytesToNatBE (natToBytesBE 32 gX), bytesToNatBE (natToBytesBE 32 gY)))))))
    rfl

end PinProtocol
